import Mathlib

/-!
Verification of the go-env configuration loader (src/configs.go).

The development shallowly embeds the reflection-driven environment binder:
Go struct types become an inductive type universe, reflect values become an
inductive value type, and the in-place mutation of LoadEnv / loadInto /
setValueFromString becomes explicit state passing where each operation
returns the updated value together with an optional error (mirroring the
fact that a Go error return leaves earlier in-place writes visible).

External collaborators (strconv, time, strings, os.LookupEnv, the TOML
decoder, the filesystem) are modelled by explicit Lean functions or by
record parameters, following their documented behaviour as restated in the
spec. Float32/Float64 fields are not modelled (floating point semantics).
-/

namespace GoEnv

mutual

/-- The shape of a Go type as seen by the binder; fields keep their name,
their env tag (the empty string when the tag is absent, the dash string for
the skip sentinel, mirroring what reflect.StructTag.Get returns), and
whether they are exported. -/
inductive Ty where
  | str : Ty
  | boolT : Ty
  | intT (bits : Nat) : Ty
  | uintT (bits : Nat) : Ty
  | duration : Ty
  | timeT : Ty
  | slice (elem : Ty) : Ty
  | ptr (elem : Ty) : Ty
  | structT (fields : List Field) : Ty
  | other (name : String) : Ty

inductive Field where
  | mk (name : String) (tag : String) (exported : Bool) (ty : Ty) : Field

end

def Field.name : Field → String
  | .mk n _ _ _ => n

def Field.tag : Field → String
  | .mk _ t _ _ => t

def Field.exported : Field → Bool
  | .mk _ _ e _ => e

def Field.ty : Field → Ty
  | .mk _ _ _ ty => ty

/-- A reflect value. A nil pointer is ptr none; time.Time values are kept
as the text that parsed into them (their internal fields are unexported and
never bound, so only identity matters to the binder). -/
inductive Val where
  | str (s : String) : Val
  | bool (b : Bool) : Val
  | int (i : Int) : Val
  | uint (n : Nat) : Val
  | duration (n : Int) : Val
  | time (rep : String) : Val
  | slice (elems : List Val) : Val
  | ptr (v : Option Val) : Val
  | structV (fields : List Val) : Val
  | otherV : Val

/-- Kinds that reflect reports as Struct: user structs and time.Time. -/
def Ty.isStructKind : Ty → Bool
  | .structT _ => true
  | .timeT => true
  | _ => false

mutual

/-- The zero value reflect.New produces for a type (a nil slice and an
empty slice are identified; pointers are nil, so the zero value never
recurses through a pointer). -/
def zeroVal : Ty → Val
  | .str => .str ""
  | .boolT => .bool false
  | .intT _ => .int 0
  | .uintT _ => .uint 0
  | .duration => .duration 0
  | .timeT => .time "0001-01-01T00:00:00Z"
  | .slice _ => .slice []
  | .ptr _ => .ptr none
  | .structT fs => .structV (zeroFields fs)
  | .other _ => .otherV

def zeroFields : List Field → List Val
  | [] => []
  | .mk _ _ _ ty :: fs => zeroVal ty :: zeroFields fs

end

/-- The printed name of a type, used in the unsupported-type error. -/
def tyName : Ty → String
  | .str => "string"
  | .boolT => "bool"
  | .intT b => "int" ++ toString b
  | .uintT b => "uint" ++ toString b
  | .duration => "time.Duration"
  | .timeT => "time.Time"
  | .slice e => "[]" ++ tyName e
  | .ptr e => "*" ++ tyName e
  | .structT _ => "struct"
  | .other n => n

/-- The environment snapshot: os.LookupEnv as an injected read-only
lookup, distinguishing a variable set to the empty string from an unset
variable. -/
structure Ext where
  lookup : String → Option String

/-- Models os.LookupEnv as read through getenv in the source. -/
def getenv (ext : Ext) (name : String) : Option String :=
  ext.lookup name

/-- Accumulate the value of a nonempty run of decimal digits; any
non-digit character is a syntax failure. -/
def digitsVal : List Char → Nat → Option Nat
  | [], acc => some acc
  | c :: cs, acc =>
    if c.isDigit then digitsVal cs (acc * 10 + (c.toNat - 48)) else none

def parseNatDigits (cs : List Char) : Option Nat :=
  match cs with
  | [] => none
  | _ => digitsVal cs 0

/-- Modelled from the spec: strconv.ParseInt with base 10 and the field's
declared bit width — an optional sign followed by decimal digits, range
checked against the width; failures carry the strconv error text. -/
def parseInt (s : String) (bits : Nat) : Except String Int :=
  let syntaxErr : Except String Int :=
    .error ("strconv.ParseInt: parsing \"" ++ s ++ "\": invalid syntax")
  let rangeErr : Except String Int :=
    .error ("strconv.ParseInt: parsing \"" ++ s ++ "\": value out of range")
  let signed : Bool × List Char :=
    match s.toList with
    | '+' :: rest => (false, rest)
    | '-' :: rest => (true, rest)
    | rest => (false, rest)
  match parseNatDigits signed.2 with
  | none => syntaxErr
  | some n =>
    let v : Int := if signed.1 then -(n : Int) else (n : Int)
    if -(2 ^ (bits - 1) : Int) ≤ v ∧ v < 2 ^ (bits - 1) then .ok v
    else rangeErr

/-- Modelled from the spec: strconv.ParseUint with base 10 — decimal
digits with no sign permitted, range checked against the width. -/
def parseUint (s : String) (bits : Nat) : Except String Nat :=
  match parseNatDigits s.toList with
  | none => .error ("strconv.ParseUint: parsing \"" ++ s ++ "\": invalid syntax")
  | some n =>
    if n < 2 ^ bits then .ok n
    else .error ("strconv.ParseUint: parsing \"" ++ s ++ "\": value out of range")

/-- Modelled from the spec: strconv.ParseBool accepts the canonical truthy
and falsy tokens and rejects everything else. -/
def parseBool (s : String) : Except String Bool :=
  if s = "1" ∨ s = "t" ∨ s = "T" ∨ s = "true" ∨ s = "TRUE" ∨ s = "True" then .ok true
  else if s = "0" ∨ s = "f" ∨ s = "F" ∨ s = "false" ∨ s = "FALSE" ∨ s = "False" then .ok false
  else .error ("strconv.ParseBool: parsing \"" ++ s ++ "\": invalid syntax")

/-- Nanoseconds per unit for the duration grammar; longest unit names are
matched first, and an unknown unit is a failure. -/
def durUnit : List Char → Option (Int × List Char)
  | 'n' :: 's' :: rest => some (1, rest)
  | 'u' :: 's' :: rest => some (1000, rest)
  | 'm' :: 's' :: rest => some (1000000, rest)
  | 'm' :: rest => some (60000000000, rest)
  | 's' :: rest => some (1000000000, rest)
  | 'h' :: rest => some (3600000000000, rest)
  | _ => none

/-- One magnitude-and-unit segment: a nonempty digit run then a unit.
Returns the segment's nanosecond value and the remaining characters. -/
def durSeg : List Char → Option (Int × List Char)
  | cs =>
    let digits := cs.takeWhile Char.isDigit
    let rest := cs.dropWhile Char.isDigit
    match parseNatDigits digits with
    | none => none
    | some n =>
      match durUnit rest with
      | none => none
      | some (scale, rest2) => some ((n : Int) * scale, rest2)

/-- Fuelled loop over the remaining segments of a duration string. -/
def durLoop : Nat → List Char → Int → Option Int
  | _, [], acc => some acc
  | 0, _ :: _, _ => none
  | fuel + 1, cs, acc =>
    match durSeg cs with
    | none => none
    | some (v, rest) => durLoop fuel rest (acc + v)

/-- Modelled from the spec: time.ParseDuration — the conventional compound
duration grammar, an optional sign followed by one or more numeric
magnitude and unit segments such as 5s or 150ms, with the bare zero
permitted. -/
def parseDuration (s : String) : Except String Int :=
  let signed : Bool × List Char :=
    match s.toList with
    | '+' :: rest => (false, rest)
    | '-' :: rest => (true, rest)
    | rest => (false, rest)
  let err : Except String Int := .error ("time: invalid duration \"" ++ s ++ "\"")
  match signed.2 with
  | [] => err
  | ['0'] => .ok 0
  | cs =>
    match durSeg cs with
    | none => err
    | some (v, rest) =>
      match durLoop rest.length rest v with
      | none => err
      | some total => .ok (if signed.1 then -total else total)

/-- Shape test for the fixed internationally standardized timestamp text. -/
def rfc3339Ok (s : String) : Bool :=
  match s.toList with
  | [y1, y2, y3, y4, '-', m1, m2, '-', d1, d2, 'T',
     h1, h2, ':', n1, n2, ':', s1, s2, 'Z'] =>
    y1.isDigit && y2.isDigit && y3.isDigit && y4.isDigit &&
    m1.isDigit && m2.isDigit && d1.isDigit && d2.isDigit &&
    h1.isDigit && h2.isDigit && n1.isDigit && n2.isDigit &&
    s1.isDigit && s2.isDigit
  | _ => false

/-- Modelled from the spec: the external standard-library timestamp parser
for the fixed internationally standardized (RFC 3339) date-time text
format; the parsed instant is represented by its accepted text. -/
def timeParse (s : String) : Except String String :=
  if rfc3339Ok s then .ok s
  else .error ("parsing time \"" ++ s ++ "\" as RFC3339: cannot parse")

/-- strings.Split on the comma separator, at the character level: the
result always has one more entry than there are commas, so the empty
string splits to a single empty segment. -/
def splitCharAux : List Char → List Char → List String
  | [], acc => [String.mk acc.reverse]
  | c :: cs, acc =>
    if c = ',' then String.mk acc.reverse :: splitCharAux cs []
    else splitCharAux cs (c :: acc)

def splitOnComma (s : String) : List String :=
  splitCharAux s.toList []

/-- strings.TrimSpace: drop leading and trailing whitespace. -/
def trimGo (s : String) : String :=
  String.mk (((s.toList.dropWhile Char.isWhitespace).reverse.dropWhile
    Char.isWhitespace).reverse)

/-- splitComma from the source: split on commas, trim each segment, drop
segments that are empty after trimming, keeping left-to-right order. -/
def splitCommaGo : List String → List String
  | [] => []
  | r :: rest =>
    let r2 := trimGo r
    if r2 ≠ "" then r2 :: splitCommaGo rest else splitCommaGo rest

def splitComma (s : String) : List String :=
  splitCommaGo (splitOnComma s)

/-- fieldErr from the source: prefix the underlying error with the field
name. -/
def fieldErr (name e : String) : String :=
  name ++ ": " ++ e

/-- The allocate-if-nil-then-dereference step shared by the walker's
pointer case and the leaf parser's pointer case: a non-nil pointer is
followed, a nil pointer is (re)placed by a fresh zero value of the
pointee type. -/
def ptrInner (elem : Ty) : Val → Val
  | .ptr (some u) => u
  | _ => zeroVal elem

/-- The element loop of the slice case: each element of the freshly made
slice starts from the element type's zero value and is parsed in order by
the supplied element parser; the first failure aborts and the new slice is
discarded by the caller. -/
def setSliceElems (f : String → Val × Option String) : List String → List Val × Option String
  | [] => ([], none)
  | p :: ps =>
    let r := f p
    match r.2 with
    | some e => ([], some e)
    | none =>
      let rr := setSliceElems f ps
      (r.1 :: rr.1, rr.2)

/-- setValueFromString from the source, in state-passing form: the first
component is the value the field holds after the call, the second the
returned error. A failed parse leaves the state at the pre-call value,
except that a nil pointer has already been allocated before the pointee
parse is attempted, exactly as the source mutates through reflect. -/
def setValueFromString : Ty → Val → String → Val × Option String
  | .duration, v, s =>
    match parseDuration s with
    | .error e => (v, some e)
    | .ok d => (.duration d, none)
  | .str, _, s => (.str s, none)
  | .boolT, v, s =>
    match parseBool s with
    | .error e => (v, some e)
    | .ok b => (.bool b, none)
  | .intT bits, v, s =>
    match parseInt s bits with
    | .error e => (v, some e)
    | .ok i => (.int i, none)
  | .uintT bits, v, s =>
    match parseUint s bits with
    | .error e => (v, some e)
    | .ok u => (.uint u, none)
  | .slice elem, v, s =>
    match setSliceElems (fun p => setValueFromString elem (zeroVal elem) p) (splitComma s) with
    | (_, some e) => (v, some e)
    | (vs, none) => (.slice vs, none)
  | .ptr elem, v, s =>
    let r := setValueFromString elem (ptrInner elem v) s
    (.ptr (some r.1), r.2)
  | ty, v, _ => (v, some ("unsupported field type: " ++ tyName ty))

/-- The tag-driven leaf assignment at the end of the loadInto loop body:
skip an absent tag or the skip sentinel, skip an unset variable, otherwise
parse and assign, wrapping a failure with the field name as fieldErr
does. -/
def tagStep (ext : Ext) (name tag : String) (ty : Ty) (v : Val) : Val × Option String :=
  if tag = "" ∨ tag = "-" then (v, none)
  else
    match getenv ext tag with
    | some s =>
      let r := setValueFromString ty v s
      match r.2 with
      | some e => (r.1, some (fieldErr name e))
      | none => (r.1, none)
    | none => (v, none)

mutual

/-- One iteration of the loadInto field loop: skip unexported fields,
special-case a time.Time struct field as a scalar, recurse into struct
fields and (after unconditionally allocating a nil pointer) into
pointer-to-struct fields, and otherwise fall through to the tag-driven
leaf assignment. -/
def loadField (ext : Ext) : Field → Val → Val × Option String
  | .mk name tag exported ty, v =>
    if exported = false then (v, none)
    else
      match ty, v with
      | .timeT, w =>
        if tag = "" ∨ tag = "-" then (w, none)
        else
          match getenv ext tag with
          | some s =>
            match timeParse s with
            | .error e => (w, some (fieldErr name e))
            | .ok t => (.time t, none)
          | none => (w, none)
      | .structT fs, w => loadInto ext (.structT fs) w
      | .ptr elem, w =>
        if elem.isStructKind then
          let r := loadInto ext elem (ptrInner elem w)
          (.ptr (some r.1), r.2)
        else tagStep ext name tag (.ptr elem) w
      | t2, w => tagStep ext name tag t2 w

/-- The field loop of loadInto: process fields in declaration order and
abort on the first error, leaving the remaining fields untouched while
keeping the in-place writes already performed. -/
def loadStructFields (ext : Ext) : List Field → List Val → List Val × Option String
  | [], vs => (vs, none)
  | _ :: _, [] => ([], none)
  | f :: fs, v :: vs =>
    let r := loadField ext f v
    match r.2 with
    | some e => (r.1 :: vs, some e)
    | none =>
      let rr := loadStructFields ext fs vs
      (r.1 :: rr.1, rr.2)

/-- loadInto from the source: iterate over the struct's fields. On a
non-struct type (reached only for time.Time, whose fields are all
unexported) the loop body never fires and the value is returned
unchanged. -/
def loadInto (ext : Ext) : Ty → Val → Val × Option String
  | .structT fs, .structV vs =>
    let r := loadStructFields ext fs vs
    (.structV r.1, r.2)
  | _, v => (v, none)

end

/-- A Go interface value handed to LoadEnv: either the untyped nil
interface or a typed value. -/
inductive GoAny where
  | nilA : GoAny
  | val (ty : Ty) (v : Val) : GoAny

/-- LoadEnv from the source: reject a nil interface, reject anything that
is not a non-nil pointer whose pointee kind is Struct (a nil typed
pointer has an invalid Elem kind and is rejected the same way), then bind
through the pointer. -/
def LoadEnv (ext : Ext) : GoAny → GoAny × Option String
  | .nilA => (.nilA, some "nil target")
  | .val (Ty.ptr elem) (Val.ptr (some inner)) =>
    if elem.isStructKind then
      let r := loadInto ext elem inner
      (.val (Ty.ptr elem) (Val.ptr (some r.1)), r.2)
    else (.val (Ty.ptr elem) (Val.ptr (some inner)), some "LoadEnv requires a pointer to a struct")
  | .val ty v => (.val ty v, some "LoadEnv requires a pointer to a struct")

/-- What os.Stat reports for the configured path. -/
inductive StatRes where
  | found (isDir : Bool) : StatRes
  | notExist : StatRes
  | otherErr (msg : String) : StatRes

/-- The external filesystem and TOML decoder as LoadConfig consumes them:
a stat query and a decode that merges the file's contents into the
target. -/
structure FS where
  stat : String → StatRes
  decode : String → GoAny → Except String GoAny

/-- How a LoadConfig run ends: a normal return of nil, a returned error,
or a fatal log that terminates the process before returning. -/
inductive Status where
  | ok : Status
  | err (msg : String) : Status
  | fatal (msg : String) : Status

/-- Run the environment binder and lift its optional error into a normal
return status. -/
def envStep (ext : Ext) (a : GoAny) : GoAny × Status :=
  let r := LoadEnv ext a
  (r.1, match r.2 with
        | none => Status.ok
        | some m => Status.err m)

/-- LoadConfig from the source: an empty path, a missing file, or a path
that names a directory all skip decoding and run the binder alone; an
existing regular file is decoded first (a decode failure is a fatal log,
not a returned error) and then the binder runs; any other stat failure is
a fatal log. -/
def LoadConfig (ext : Ext) (fs : FS) (configFile : String) (a : GoAny) : GoAny × Status :=
  if configFile = "" then envStep ext a
  else
    match fs.stat configFile with
    | .found isDir =>
      if isDir then envStep ext a
      else
        match fs.decode configFile a with
        | .error e =>
          (a, Status.fatal ("failed to decode config file \"" ++ configFile ++ "\": " ++ e))
        | .ok a2 => envStep ext a2
    | .notExist => envStep ext a
    | .otherErr m =>
      (a, Status.fatal ("error checking config file \"" ++ configFile ++ "\": " ++ m))

/-! ## Derived classifiers and helper lemmas -/

/-- Pointer types, as classified by the kind switch of the leaf parser. -/
def isPtrTy : Ty → Bool
  | .ptr _ => true
  | _ => false

/-- Leaf fields in the walker's sense: everything except a record-kind
field and a pointer to a record-kind type (time.Time counts as a leaf
because the walker special-cases it as a scalar). -/
def scalarLeaf : Ty → Bool
  | .structT _ => false
  | .ptr e => !e.isStructKind
  | _ => true

/-- The validity test LoadEnv performs on its argument: a non-nil typed
pointer whose pointee kind is Struct. -/
def isValidTarget : GoAny → Bool
  | .val (Ty.ptr elem) (Val.ptr (some _)) => elem.isStructKind
  | _ => false

/-- The list-splitting pipeline exactly as the spec words it: split on
commas, trim each segment, drop segments empty after trimming. -/
def splitCommaSpec (s : String) : List String :=
  ((splitOnComma s).map trimGo).filter (fun r => r != "")

theorem splitCommaGo_eq (l : List String) :
    splitCommaGo l = (l.map trimGo).filter (fun r => r != "") := by
  induction l with
  | nil => rfl
  | cons r rest ih =>
    by_cases h : trimGo r = ""
    · simp [splitCommaGo, h, ih]
    · simp [splitCommaGo, h, ih]

theorem tagStep_skip (ext : Ext) (name tag : String) (ty : Ty) (v : Val)
    (h : tag = "" ∨ tag = "-" ∨ getenv ext tag = none) :
    tagStep ext name tag ty v = (v, none) := by
  rcases h with h | h | h
  · simp [tagStep, h]
  · simp [tagStep, h]
  · by_cases hif : tag = "" ∨ tag = "-"
    · simp [tagStep, hif]
    · simp [tagStep, hif, h]

/-! ## Claims -/

def c7Ty : Ty := .structT [.mk "Tags" "TAGS" true (.slice (.intT 64))]

def c7ExtSet : Ext := ⟨fun n => if n = "TAGS" then some "1, 2 ,3" else none⟩

def c7ExtEmpty : Ext := ⟨fun n => if n = "TAGS" then some "" else none⟩

/-- C7: for every list-typed field whose variable is set, the text is
split on commas, each segment trimmed, empty segments dropped, and each
remaining segment parsed in left-to-right order; binding the text
1-comma-2-comma-3 with stray spaces to a list-of-integer field yields the
sequence 1, 2, 3, and binding the empty text yields the empty sequence. -/
theorem C7_list_split_trim_drop :
    (∀ s : String, splitComma s = splitCommaSpec s) ∧
    loadInto c7ExtSet c7Ty (.structV [.slice []])
      = (.structV [.slice [.int 1, .int 2, .int 3]], none) ∧
    loadInto c7ExtEmpty c7Ty (.structV [.slice [.int 9, .int 8]])
      = (.structV [.slice []], none) := by
  exact ⟨fun s => splitCommaGo_eq (splitOnComma s), by rfl, by rfl⟩

/-- C9: a field whose type is a user-defined nested record (not the
timestamp type) is recursed into and its own binding tag is never
consulted: the result of the walk does not depend on that tag, for any
environment. -/
theorem C9_struct_field_tag_ignored (ext : Ext) (n t t' : String) (e : Bool)
    (fs : List Field) (v : Val) :
    loadField ext (.mk n t e (.structT fs)) v
      = loadField ext (.mk n t' e (.structT fs)) v := by
  cases e <;> simp [loadField]

def c5ElemTy : Ty := .structT [.mk "X" "X" true (.intT 64)]

/-- C5: a field that is a nullable reference to a record, when unset, is
allocated unconditionally by the walker — for every environment, its
post-walk value is a non-nil reference, whether or not any descendant
variable is set and even when the walk later fails. -/
theorem C5_nested_allocation (ext : Ext) (name tag : String) (elem : Ty)
    (h : elem.isStructKind = true) :
    ∃ w, (loadField ext (.mk name tag true (.ptr elem)) (.ptr none)).1
      = .ptr (some w) := by
  refine ⟨(loadInto ext elem (zeroVal elem)).1, ?_⟩
  simp [loadField, h, ptrInner]

/-- C5 witness: a concrete record reference with one tagged descendant is
allocated even though the whole environment is empty. -/
theorem C5_nested_allocation_witness :
    ∃ w, (loadField ⟨fun _ => none⟩ (.mk "A" "" true (.ptr c5ElemTy)) (.ptr none)).1
      = .ptr (some w) :=
  C5_nested_allocation ⟨fun _ => none⟩ "A" "" c5ElemTy rfl

/-- C8: an argument that is not a mutable reference to a record — the nil
interface, a nil typed pointer, a pointer to a non-record value, or a
non-pointer — makes LoadEnv return an error immediately with the target
unchanged. -/
theorem C8_invalid_target (ext : Ext) (a : GoAny)
    (h : isValidTarget a = false) :
    (LoadEnv ext a).1 = a ∧ ((LoadEnv ext a).2).isSome = true := by
  match a with
  | .nilA => exact ⟨rfl, rfl⟩
  | .val (Ty.ptr elem) (Val.ptr (some inner)) =>
    simp [isValidTarget] at h
    simp [LoadEnv, h]
  | .val (Ty.ptr elem) (Val.ptr none) => exact ⟨rfl, rfl⟩
  | .val Ty.str v => exact ⟨rfl, rfl⟩
  | .val Ty.boolT v => exact ⟨rfl, rfl⟩
  | .val (Ty.intT b) v => exact ⟨rfl, rfl⟩
  | .val (Ty.uintT b) v => exact ⟨rfl, rfl⟩
  | .val Ty.duration v => exact ⟨rfl, rfl⟩
  | .val Ty.timeT v => exact ⟨rfl, rfl⟩
  | .val (Ty.slice e) v => exact ⟨rfl, rfl⟩
  | .val (Ty.structT fs) v => exact ⟨rfl, rfl⟩
  | .val (Ty.other n) v => exact ⟨rfl, rfl⟩
  | .val (Ty.ptr elem) (Val.str s) => exact ⟨rfl, rfl⟩
  | .val (Ty.ptr elem) (Val.bool b) => exact ⟨rfl, rfl⟩
  | .val (Ty.ptr elem) (Val.int i) => exact ⟨rfl, rfl⟩
  | .val (Ty.ptr elem) (Val.uint u) => exact ⟨rfl, rfl⟩
  | .val (Ty.ptr elem) (Val.duration d) => exact ⟨rfl, rfl⟩
  | .val (Ty.ptr elem) (Val.time t) => exact ⟨rfl, rfl⟩
  | .val (Ty.ptr elem) (Val.slice vs) => exact ⟨rfl, rfl⟩
  | .val (Ty.ptr elem) (Val.structV vs) => exact ⟨rfl, rfl⟩
  | .val (Ty.ptr elem) Val.otherV => exact ⟨rfl, rfl⟩

/-- C8 witness: a non-pointer integer argument is rejected unchanged. -/
theorem C8_invalid_target_witness :
    (LoadEnv ⟨fun _ => none⟩ (.val (Ty.intT 64) (Val.int 5))).1
      = .val (Ty.intT 64) (Val.int 5) ∧
    ((LoadEnv ⟨fun _ => none⟩ (.val (Ty.intT 64) (Val.int 5))).2).isSome = true :=
  C8_invalid_target ⟨fun _ => none⟩ (.val (Ty.intT 64) (Val.int 5)) rfl

/-- C10: an environment variable set to the empty string is treated as
set, not absent: a tagged text field is assigned the empty string and a
tagged list field the empty sequence, overwriting prior values, while an
unset variable leaves both fields unchanged. -/
theorem C10_empty_string_is_set (ext1 ext2 : Ext) (name tag : String) (ty : Ty)
    (v1 v2 v3 v4 : Val)
    (h1 : tag ≠ "") (h2 : tag ≠ "-")
    (hset : getenv ext1 tag = some "")
    (hunset : getenv ext2 tag = none) :
    loadField ext1 (.mk name tag true .str) v1 = (.str "", none) ∧
    loadField ext1 (.mk name tag true (.slice ty)) v2 = (.slice [], none) ∧
    loadField ext2 (.mk name tag true .str) v3 = (v3, none) ∧
    loadField ext2 (.mk name tag true (.slice ty)) v4 = (v4, none) := by
  have hsp : splitComma "" = [] := rfl
  refine ⟨?_, ?_, ?_, ?_⟩
  · simp [loadField, tagStep, h1, h2, hset, setValueFromString]
  · simp [loadField, tagStep, h1, h2, hset, setValueFromString, hsp, setSliceElems]
  · exact tagStep_skip ext2 name tag .str v3 (Or.inr (Or.inr hunset)) ▸ by
      simp [loadField, tagStep_skip, hunset]
  · simp [loadField, tagStep_skip ext2 name tag (.slice ty) v4 (Or.inr (Or.inr hunset))]

/-- C10 witness: with every variable set to the empty string a text field
holding prior text becomes empty and an integer list holding prior
elements becomes empty, and with an empty environment both keep their
prior values. -/
theorem C10_empty_string_is_set_witness :
    loadField ⟨fun _ => some ""⟩ (.mk "S" "T" true .str) (.str "prior") = (.str "", none) ∧
    loadField ⟨fun _ => some ""⟩ (.mk "S" "T" true (.slice (.intT 64))) (.slice [.int 1, .int 2])
      = (.slice [], none) ∧
    loadField ⟨fun _ => none⟩ (.mk "S" "T" true .str) (.str "prior") = (.str "prior", none) ∧
    loadField ⟨fun _ => none⟩ (.mk "S" "T" true (.slice (.intT 64))) (.slice [.int 1, .int 2])
      = (.slice [.int 1, .int 2], none) :=
  C10_empty_string_is_set ⟨fun _ => some ""⟩ ⟨fun _ => none⟩ "S" "T" (.intT 64)
    (.str "prior") (.slice [.int 1, .int 2]) (.str "prior") (.slice [.int 1, .int 2])
    (by simp) (by simp) rfl rfl

def c2Ty : Ty := .structT [.mk "A" "" true (.ptr (.structT [.mk "X" "X" true (.intT 64)]))]

def c2Ext : Ext := ⟨fun _ => none⟩

def c2Pre : Val := .structV [.ptr none]

/-- C2 counterexample: the claim as stated is false — a field with no
binding tag at all, of nullable-reference-to-record type and currently
nil, is changed by the bind operation: it is allocated even though the
whole environment is empty, so its post-bind value differs from its
pre-bind value. -/
theorem C2_counterexample :
    (loadInto c2Ext c2Ty c2Pre).1 = .structV [.ptr (some (.structV [.int 0]))] ∧
    (loadInto c2Ext c2Ty c2Pre).2 = none ∧
    Val.structV [Val.ptr (some (Val.structV [Val.int 0]))] ≠ c2Pre := by
  refine ⟨by rfl, by rfl, ?_⟩
  simp [c2Pre]

/-- C2 amended: the frame invariant holds for leaf fields — every field
whose type is not a record and not a nullable reference to a record
(time.Time counting as a scalar leaf) is left exactly at its pre-bind
value when it has no usable binding tag or when its variable is unset,
and an unexported field of any type is always left unchanged. -/
theorem C2_leaf_frame (ext : Ext) (f : Field) (v : Val)
    (h : f.exported = false ∨
      (scalarLeaf f.ty = true ∧
        (f.tag = "" ∨ f.tag = "-" ∨ getenv ext f.tag = none))) :
    loadField ext f v = (v, none) := by
  obtain ⟨name, tag, exported, ty⟩ := f
  simp only [Field.exported, Field.tag, Field.ty] at h
  cases exported with
  | false => simp [loadField]
  | true =>
    rcases h with h | ⟨hleaf, htag⟩
    · exact absurd h (by simp)
    · cases ty with
      | structT fs => simp [scalarLeaf] at hleaf
      | timeT =>
        rcases htag with h | h | h
        · simp [loadField, h]
        · simp [loadField, h]
        · by_cases hif : tag = "" ∨ tag = "-"
          · simp [loadField, hif]
          · simp [loadField, hif, h]
      | ptr elem =>
        have hsk : elem.isStructKind = false := by
          simpa [scalarLeaf] using hleaf
        simp [loadField, hsk, tagStep_skip ext name tag (.ptr elem) v htag]
      | str => simp [loadField, tagStep_skip ext name tag .str v htag]
      | boolT => simp [loadField, tagStep_skip ext name tag .boolT v htag]
      | intT b => simp [loadField, tagStep_skip ext name tag (.intT b) v htag]
      | uintT b => simp [loadField, tagStep_skip ext name tag (.uintT b) v htag]
      | duration => simp [loadField, tagStep_skip ext name tag .duration v htag]
      | slice e => simp [loadField, tagStep_skip ext name tag (.slice e) v htag]
      | other n => simp [loadField, tagStep_skip ext name tag (.other n) v htag]

/-- C2 amended witness: a tagged text field whose variable is unset keeps
its file-loaded value. -/
theorem C2_leaf_frame_witness :
    loadField ⟨fun _ => none⟩ (.mk "Host" "SERVER_HOST" true .str) (.str "from-toml")
      = (.str "from-toml", none) :=
  C2_leaf_frame ⟨fun _ => none⟩ (.mk "Host" "SERVER_HOST" true .str) (.str "from-toml")
    (Or.inr ⟨rfl, Or.inr (Or.inr rfl)⟩)

def c3Ty : Ty := .structT [.mk "N" "N" true (.ptr (.intT 64))]

def c3Ext : Ext := ⟨fun n => if n = "N" then some "abc" else none⟩

def c3Pre : Val := .structV [.ptr none]

/-- C3 counterexample: the claim as stated is false for an unset
optional/nullable reference field — with its variable set to unparsable
text, the bind aborts with a field error, yet the field does not retain
its pre-call nil value: it has been allocated (now a reference to the
zero value) before the failed parse. -/
theorem C3_counterexample :
    (loadInto c3Ext c3Ty c3Pre).1 = .structV [.ptr (some (.int 0))] ∧
    (loadInto c3Ext c3Ty c3Pre).2
      = some "N: strconv.ParseInt: parsing \"abc\": invalid syntax" ∧
    Val.structV [Val.ptr (some (Val.int 0))] ≠ c3Pre := by
  refine ⟨by rfl, by rfl, ?_⟩
  simp [c3Pre]

/-- C3 amended: binding is atomic per field for every non-reference
field — a failed parse leaves such a field at its pre-call value — and the
field loop aborts on the first failure, returning the field error
immediately and leaving all later fields untouched; an unset nullable
reference field, however, is allocated before the pointee parse is
attempted and stays allocated when that parse fails. -/
theorem C3_atomic_abort :
    (∀ (ty : Ty) (v : Val) (s e : String),
      isPtrTy ty = false → (setValueFromString ty v s).2 = some e →
      (setValueFromString ty v s).1 = v) ∧
    (∀ (ext : Ext) (f : Field) (fs : List Field) (v : Val) (vs : List Val) (e : String),
      (loadField ext f v).2 = some e →
      loadStructFields ext (f :: fs) (v :: vs) = ((loadField ext f v).1 :: vs, some e)) := by
  constructor
  · intro ty v s e hp h
    cases ty with
    | str => simp [setValueFromString] at h
    | boolT =>
      cases hb : parseBool s with
      | error e2 => simp [setValueFromString, hb]
      | ok b => simp [setValueFromString, hb] at h
    | intT b =>
      cases hb : parseInt s b with
      | error e2 => simp [setValueFromString, hb]
      | ok i => simp [setValueFromString, hb] at h
    | uintT b =>
      cases hb : parseUint s b with
      | error e2 => simp [setValueFromString, hb]
      | ok u => simp [setValueFromString, hb] at h
    | duration =>
      cases hb : parseDuration s with
      | error e2 => simp [setValueFromString, hb]
      | ok d => simp [setValueFromString, hb] at h
    | slice elem =>
      rcases hsl : setSliceElems (fun p => setValueFromString elem (zeroVal elem) p)
          (splitComma s) with ⟨vs2, err2⟩
      cases err2 with
      | none => simp [setValueFromString, hsl] at h
      | some e2 => simp [setValueFromString, hsl]
    | ptr elem => simp [isPtrTy] at hp
    | timeT => simp [setValueFromString]
    | structT fs => simp [setValueFromString]
    | other n => simp [setValueFromString]
  · intro ext f fs v vs e h
    simp [loadStructFields, h]

/-- C3 amended witness: a failed integer parse leaves the integer field at
its prior value. -/
theorem C3_atomic_abort_witness :
    (setValueFromString (.intT 64) (.int 7) "abc").1 = .int 7 :=
  C3_atomic_abort.1 (.intT 64) (.int 7) "abc"
    "strconv.ParseInt: parsing \"abc\": invalid syntax" rfl (by rfl)

def serverTy (tagP tagH : String) : Ty :=
  .structT [.mk "Port" tagP true (.intT 64), .mk "Host" tagH true .str]

/-- C1: environment values override file values and file values survive
when no variable is set — after LoadConfig on an existing file whose
decode assigns the integer field the file value and the text field the
file text, a field whose variable is set ends at the parsed form of the
environment text, and a field whose variable is unset keeps the
file-supplied value. -/
theorem C1_override_and_fallthrough (ext : Ext) (fsys : FS) (a : GoAny)
    (path tagP tagH portB hostA : String) (portA n : Int)
    (hpath : path ≠ "")
    (hstat : fsys.stat path = .found false)
    (hdec : fsys.decode path a
      = .ok (.val (.ptr (serverTy tagP tagH))
          (.ptr (some (.structV [.int portA, .str hostA])))))
    (hp1 : tagP ≠ "") (hp2 : tagP ≠ "-")
    (hh1 : tagH ≠ "") (hh2 : tagH ≠ "-")
    (henvP : getenv ext tagP = some portB)
    (hparse : parseInt portB 64 = .ok n)
    (henvH : getenv ext tagH = none) :
    LoadConfig ext fsys path a
      = (.val (.ptr (serverTy tagP tagH))
          (.ptr (some (.structV [.int n, .str hostA]))), .ok) := by
  simp [LoadConfig, hpath, hstat, hdec, envStep, LoadEnv, serverTy, Ty.isStructKind,
    loadInto, loadStructFields, loadField, tagStep, hp1, hp2, hh1, hh2, henvP, henvH,
    setValueFromString, hparse]

def c1Ext : Ext := ⟨fun v => if v = "SERVER_PORT" then some "5678" else none⟩

def c1FS : FS := ⟨fun _ => .found false,
  fun _ _ => .ok (.val (.ptr (serverTy "SERVER_PORT" "SERVER_HOST"))
    (.ptr (some (.structV [.int 1234, .str "from-toml"]))))⟩

def c1A : GoAny := .val (.ptr (serverTy "SERVER_PORT" "SERVER_HOST"))
  (.ptr (some (.structV [.int 0, .str ""])))

/-- C1 witness: the spec scenario — the file sets Port to 1234 and Host
to from-toml, the environment sets only the port variable to 5678, and
the loaded record ends with Port 5678 and Host from-toml. -/
theorem C1_override_and_fallthrough_witness :
    LoadConfig c1Ext c1FS "config.toml" c1A
      = (.val (.ptr (serverTy "SERVER_PORT" "SERVER_HOST"))
          (.ptr (some (.structV [.int 5678, .str "from-toml"]))), .ok) :=
  C1_override_and_fallthrough c1Ext c1FS c1A "config.toml" "SERVER_PORT" "SERVER_HOST"
    "5678" "from-toml" 1234 5678 (by decide) rfl rfl (by decide) (by decide)
    (by decide) (by decide) rfl (by rfl) rfl

/-- The statuses LoadConfig can normally return to its caller. -/
def Status.isRetErr : Status → Bool
  | .err _ => true
  | _ => false

def c6Ext : Ext := ⟨fun _ => none⟩

def c6FS : FS := ⟨fun _ => .found false, fun _ _ => .error "toml: invalid"⟩

def c6A : GoAny := .val (.ptr (.structT [])) (.ptr (some (.structV [])))

/-- C6 counterexample: a decode failure of an existing file is not
propagated to the caller as a returned error — LoadConfig ends in a
fatal log that terminates the process, so its outcome is a fatal abort
and not a returned error. -/
theorem C6_counterexample :
    (LoadConfig c6Ext c6FS "cfg" c6A).2
      = .fatal "failed to decode config file \"cfg\": toml: invalid" ∧
    ((LoadConfig c6Ext c6FS "cfg" c6A).2).isRetErr = false :=
  ⟨by rfl, by rfl⟩

/-- C6 amended: file-stage failures — a decode failure of an existing
file, or a filesystem error other than non-existence — abort the whole
load fatally (the process terminates at the log call) rather than being
returned as an error, and the environment binder never runs on a
partially decoded target; an empty path or a missing file is not an
error and the environment binder still runs. -/
theorem C6_file_stage_failures :
    (∀ (ext : Ext) (fsys : FS) (path : String) (a : GoAny) (e : String),
      path ≠ "" → fsys.stat path = .found false → fsys.decode path a = .error e →
      LoadConfig ext fsys path a
        = (a, .fatal ("failed to decode config file \"" ++ path ++ "\": " ++ e))) ∧
    (∀ (ext : Ext) (fsys : FS) (path : String) (a : GoAny) (m : String),
      path ≠ "" → fsys.stat path = .otherErr m →
      LoadConfig ext fsys path a
        = (a, .fatal ("error checking config file \"" ++ path ++ "\": " ++ m))) ∧
    (∀ (ext : Ext) (fsys : FS) (path : String) (a : GoAny),
      path = "" ∨ fsys.stat path = .notExist →
      LoadConfig ext fsys path a = envStep ext a) := by
  refine ⟨?_, ?_, ?_⟩
  · intro ext fsys path a e hp hs hd
    simp [LoadConfig, hp, hs, hd]
  · intro ext fsys path a m hp hs
    simp [LoadConfig, hp, hs]
  · intro ext fsys path a h
    rcases h with h | h
    · simp [LoadConfig, h]
    · by_cases hp : path = ""
      · simp [LoadConfig, hp]
      · simp [LoadConfig, hp, h]

/-- C6 witness: a concrete decode failure ends in the fatal decode
message with the target unchanged. -/
theorem C6_file_stage_failures_witness :
    LoadConfig c6Ext c6FS "cfg" c6A
      = (c6A, .fatal "failed to decode config file \"cfg\": toml: invalid") :=
  C6_file_stage_failures.1 c6Ext c6FS "cfg" c6A "toml: invalid" (by decide) rfl rfl

/-! ## Termination of the walk (C4)

The walker above is defined by structural recursion, so to reason about
termination of the source's unbounded recursion we re-express the walk
with an explicit recursion-depth budget and show the budget given by the
static size of the type suffices. A second, graph-formed type universe
then exhibits a Go type on which no budget suffices. -/

mutual

/-- The walker with an explicit recursion-depth budget: each entry into
the struct loop consumes one unit, and none models a run that needs more
depth than the budget allows. -/
def loadFieldF (fuel : Nat) (ext : Ext) : Field → Val → Option (Val × Option String)
  | .mk name tag exported ty, v =>
    if exported = false then some (v, none)
    else
      match ty, v with
      | .timeT, w =>
        if tag = "" ∨ tag = "-" then some (w, none)
        else
          match getenv ext tag with
          | some s =>
            match timeParse s with
            | .error e => some (w, some (fieldErr name e))
            | .ok t => some (.time t, none)
          | none => some (w, none)
      | .structT fs, w => loadIntoF fuel ext (.structT fs) w
      | .ptr elem, w =>
        if elem.isStructKind then
          match loadIntoF fuel ext elem (ptrInner elem w) with
          | none => none
          | some r => some (.ptr (some r.1), r.2)
        else some (tagStep ext name tag (.ptr elem) w)
      | t2, w => some (tagStep ext name tag t2 w)

def loadStructFieldsF (fuel : Nat) (ext : Ext) :
    List Field → List Val → Option (List Val × Option String)
  | [], vs => some (vs, none)
  | _ :: _, [] => some ([], none)
  | f :: fs, v :: vs =>
    match loadFieldF fuel ext f v with
    | none => none
    | some r =>
      match r.2 with
      | some e => some (r.1 :: vs, some e)
      | none =>
        match loadStructFieldsF fuel ext fs vs with
        | none => none
        | some rr => some (r.1 :: rr.1, rr.2)

def loadIntoF : Nat → Ext → Ty → Val → Option (Val × Option String)
  | 0, _, _, _ => none
  | fuel + 1, ext, .structT fs, .structV vs =>
    match loadStructFieldsF fuel ext fs vs with
    | none => none
    | some r => some (.structV r.1, r.2)
  | _ + 1, _, _, v => some (v, none)

end

mutual

/-- Recursion depth sufficient for the walker on a tree type: one unit
per nested struct level actually recursed into. -/
def tyFuel : Ty → Nat
  | .structT fs => fieldsFuel fs + 1
  | _ => 1

def fieldsFuel : List Field → Nat
  | [] => 0
  | f :: fs => max (fieldFuel f) (fieldsFuel fs)

def fieldFuel : Field → Nat
  | .mk _ _ _ (.structT fs) => tyFuel (.structT fs)
  | .mk _ _ _ (.ptr e) => if e.isStructKind then tyFuel e else 0
  | .mk _ _ _ _ => 0

end

theorem tyFuel_pos (ty : Ty) : 1 ≤ tyFuel ty := by
  cases ty <;> simp [tyFuel]

theorem adequacy_field (fuel : Nat)
    (hA : ∀ (ext : Ext) (ty : Ty) (v : Val), tyFuel ty ≤ fuel →
      loadIntoF fuel ext ty v = some (loadInto ext ty v))
    (ext : Ext) (f : Field) (v : Val) (h : fieldFuel f ≤ fuel) :
    loadFieldF fuel ext f v = some (loadField ext f v) := by
  obtain ⟨name, tag, exported, ty⟩ := f
  cases exported with
  | false => simp [loadFieldF, loadField]
  | true =>
    cases ty with
    | structT fs =>
      have h2 : tyFuel (.structT fs) ≤ fuel := by simpa [fieldFuel] using h
      simp [loadFieldF, loadField, hA ext (.structT fs) v h2]
    | ptr elem =>
      by_cases hs : elem.isStructKind = true
      · have h2 : tyFuel elem ≤ fuel := by simpa [fieldFuel, hs] using h
        simp [loadFieldF, loadField, hs, hA ext elem (ptrInner elem v) h2]
      · simp at hs
        simp [loadFieldF, loadField, hs]
    | timeT =>
      by_cases hif : tag = "" ∨ tag = "-"
      · simp [loadFieldF, loadField, hif]
      · cases hg : getenv ext tag with
        | none => simp [loadFieldF, loadField, hif, hg]
        | some s =>
          cases ht : timeParse s with
          | error e => simp [loadFieldF, loadField, hif, hg, ht]
          | ok t => simp [loadFieldF, loadField, hif, hg, ht]
    | str => simp [loadFieldF, loadField]
    | boolT => simp [loadFieldF, loadField]
    | intT b => simp [loadFieldF, loadField]
    | uintT b => simp [loadFieldF, loadField]
    | duration => simp [loadFieldF, loadField]
    | slice e => simp [loadFieldF, loadField]
    | other n => simp [loadFieldF, loadField]

theorem adequacy_fields (fuel : Nat)
    (hC : ∀ (ext : Ext) (f : Field) (v : Val), fieldFuel f ≤ fuel →
      loadFieldF fuel ext f v = some (loadField ext f v))
    (ext : Ext) (fs : List Field) (vs : List Val) (h : fieldsFuel fs ≤ fuel) :
    loadStructFieldsF fuel ext fs vs = some (loadStructFields ext fs vs) := by
  induction fs generalizing vs with
  | nil => simp [loadStructFieldsF, loadStructFields]
  | cons f fs ih =>
    cases vs with
    | nil => simp [loadStructFieldsF, loadStructFields]
    | cons v vs =>
      have hmax : max (fieldFuel f) (fieldsFuel fs) ≤ fuel := by
        simpa [fieldsFuel] using h
      have hf : fieldFuel f ≤ fuel := le_trans (le_max_left _ _) hmax
      have hfs : fieldsFuel fs ≤ fuel := le_trans (le_max_right _ _) hmax
      simp only [loadStructFieldsF, loadStructFields, hC ext f v hf]
      cases hr : (loadField ext f v).2 with
      | some e => simp [hr]
      | none => simp [hr, ih vs hfs]

theorem adequacy_into (fuel : Nat)
    (hB : ∀ (ext : Ext) (fs : List Field) (vs : List Val), fieldsFuel fs ≤ fuel →
      loadStructFieldsF fuel ext fs vs = some (loadStructFields ext fs vs))
    (ext : Ext) (ty : Ty) (v : Val) (h : tyFuel ty ≤ fuel + 1) :
    loadIntoF (fuel + 1) ext ty v = some (loadInto ext ty v) := by
  cases ty with
  | structT fs =>
    cases v with
    | structV vs =>
      have h2 : fieldsFuel fs ≤ fuel := by
        simp [tyFuel] at h; omega
      simp [loadIntoF, loadInto, hB ext fs vs h2]
    | str s => simp [loadIntoF, loadInto]
    | bool b => simp [loadIntoF, loadInto]
    | int i => simp [loadIntoF, loadInto]
    | uint u => simp [loadIntoF, loadInto]
    | duration d => simp [loadIntoF, loadInto]
    | time t => simp [loadIntoF, loadInto]
    | slice l => simp [loadIntoF, loadInto]
    | ptr o => simp [loadIntoF, loadInto]
    | otherV => simp [loadIntoF, loadInto]
  | str => simp [loadIntoF, loadInto]
  | boolT => simp [loadIntoF, loadInto]
  | intT b => simp [loadIntoF, loadInto]
  | uintT b => simp [loadIntoF, loadInto]
  | duration => simp [loadIntoF, loadInto]
  | timeT => simp [loadIntoF, loadInto]
  | slice e => simp [loadIntoF, loadInto]
  | ptr e => simp [loadIntoF, loadInto]
  | other n => simp [loadIntoF, loadInto]

theorem fuel_adequate : ∀ (fuel : Nat) (ext : Ext) (ty : Ty) (v : Val),
    tyFuel ty ≤ fuel → loadIntoF fuel ext ty v = some (loadInto ext ty v) := by
  intro fuel
  induction fuel with
  | zero =>
    intro ext ty v h
    exact absurd h (by have := tyFuel_pos ty; omega)
  | succ n ih =>
    exact adequacy_into n (adequacy_fields n (adequacy_field n ih))

/-- Types in graph form: a record type is referred to by name, so that a
type may — as Go permits — reach itself through a pointer field. Leaf
fields carry a tree type and behave exactly as the tree walker's per-field
step. -/
inductive GTy where
  | leaf (ty : Ty) : GTy
  | ptrStruct (sname : String) : GTy
  | structRef (sname : String) : GTy

inductive GField where
  | mk (fname ftag : String) (fexported : Bool) (fty : GTy) : GField

/-- The named struct definitions of a program's type graph. -/
def GDefs := String → List GField

mutual

/-- The zero value of a graph type, with a depth budget for the struct
recursion through the definitions table. -/
def gZeroVal (defs : GDefs) : Nat → GTy → Option Val
  | _, .leaf ty => some (zeroVal ty)
  | _, .ptrStruct _ => some (.ptr none)
  | 0, .structRef _ => none
  | fuel + 1, .structRef nm =>
    match gZeroFields defs fuel (defs nm) with
    | none => none
    | some vs => some (.structV vs)

def gZeroFields (defs : GDefs) : Nat → List GField → Option (List Val)
  | _, [] => some []
  | fuel, .mk _ _ _ gty :: fs =>
    match gZeroVal defs fuel gty, gZeroFields defs fuel fs with
    | some v, some vs => some (v :: vs)
    | _, _ => none

end

mutual

/-- The walker over a graph-formed type, with a recursion-depth budget:
the same field loop as the tree walker, except that struct types are
resolved through the definitions table, which a Go type such as a struct
holding a pointer to itself turns into unbounded recursion. -/
def gLoadField (defs : GDefs) (ext : Ext) (fuel : Nat) : GField → Val → Option (Val × Option String)
  | .mk name tag exported gty, v =>
    if exported = false then some (v, none)
    else
      match gty with
      | .leaf ty => some (loadField ext (.mk name tag true ty) v)
      | .structRef nm => gLoadInto defs ext fuel (.structRef nm) v
      | .ptrStruct nm =>
        let innerOpt : Option Val :=
          match v with
          | .ptr (some u) => some u
          | _ => gZeroVal defs fuel (.structRef nm)
        match innerOpt with
        | none => none
        | some inner =>
          match gLoadInto defs ext fuel (.structRef nm) inner with
          | none => none
          | some r => some (.ptr (some r.1), r.2)

def gLoadStructFields (defs : GDefs) (ext : Ext) (fuel : Nat) :
    List GField → List Val → Option (List Val × Option String)
  | [], vs => some (vs, none)
  | _ :: _, [] => some ([], none)
  | f :: fs, v :: vs =>
    match gLoadField defs ext fuel f v with
    | none => none
    | some r =>
      match r.2 with
      | some e => some (r.1 :: vs, some e)
      | none =>
        match gLoadStructFields defs ext fuel fs vs with
        | none => none
        | some rr => some (r.1 :: rr.1, rr.2)

def gLoadInto (defs : GDefs) (ext : Ext) : Nat → GTy → Val → Option (Val × Option String)
  | 0, _, _ => none
  | fuel + 1, .structRef nm, .structV vs =>
    match gLoadStructFields defs ext fuel (defs nm) vs with
    | none => none
    | some r => some (.structV r.1, r.2)
  | _ + 1, _, v => some (v, none)

end

/-- The Go type Node defined as a struct holding the single untagged
field Next of type pointer-to-Node. -/
def nodeDefs : GDefs := fun _ => [.mk "Next" "" true (.ptrStruct "Node")]

/-- The zero Node value: its Next pointer is nil. -/
def nodeVal : Val := .structV [.ptr none]

/-- The walk on the self-referential Node type exhausts every
recursion-depth budget: the source's recursion on this legal Go type
never terminates, allocating Next chains forever. -/
def nodeWalkDiverges : Prop :=
  ∀ fuel : Nat, gLoadInto nodeDefs ⟨fun _ => none⟩ fuel (.structRef "Node") nodeVal = none

/-- C4 counterexample: the bind operation does not terminate for every
record type — on the self-referential record type Node, whose single
field is a nullable reference to Node itself, every recursion budget is
exhausted, because the walker allocates the nil reference and recurses
into it unconditionally. -/
theorem C4_counterexample : nodeWalkDiverges := by
  intro fuel
  induction fuel with
  | zero => simp [gLoadInto]
  | succ n ih =>
    have hz : gZeroVal nodeDefs n (.structRef "Node") = none ∨
        gZeroVal nodeDefs n (.structRef "Node") = some nodeVal := by
      cases n with
      | zero => left; simp [gZeroVal]
      | succ m => right; simp [gZeroVal, gZeroFields, nodeDefs, nodeVal]
    simp only [nodeVal] at ih hz ⊢
    rcases hz with hz | hz
    · simp [gLoadInto, gLoadStructFields, gLoadField, nodeDefs, hz]
    · simp [gLoadInto, gLoadStructFields, gLoadField, nodeDefs, hz, ih]

def c4TreeTy : Ty := .structT [.mk "Level1" "" true (.structT [
  .mk "Name" "LEVEL1_NAME" true .str,
  .mk "Level2" "" true (.ptr (.structT [.mk "Value" "LEVEL2_VALUE" true (.intT 64)]))])]

/-- C4 amended: the bind operation terminates on every acyclic record
type — every type expressible as a finite type tree, nested records and
pointer-to-record fields included: the depth-budgeted walker agrees with
the total walker whenever the budget is at least the bound given by the
static size of the type. On a record type that reaches itself through a
pointer-to-record field (legal in Go) the walk exhausts every budget. -/
theorem C4_terminates_acyclic (fuel : Nat) (ext : Ext) (ty : Ty) (v : Val)
    (h : tyFuel ty ≤ fuel) :
    loadIntoF fuel ext ty v = some (loadInto ext ty v) :=
  fuel_adequate fuel ext ty v h

/-- C4 witness: a three-level record type, with a nested record and a
nullable reference to a record, needs only its static depth of three. -/
theorem C4_terminates_acyclic_witness :
    loadIntoF 3 ⟨fun _ => none⟩ c4TreeTy (zeroVal c4TreeTy)
      = some (loadInto ⟨fun _ => none⟩ c4TreeTy (zeroVal c4TreeTy)) :=
  C4_terminates_acyclic 3 ⟨fun _ => none⟩ c4TreeTy (zeroVal c4TreeTy) (by decide)

end GoEnv
